import Mathlib

/-!
Verification development for the Blunder-Buss request-to-engine dispatch
pipeline (Go sources under `go/api/main.go`, `go/worker/main.go`,
`go/pkg/circuitbreaker/circuitbreaker.go`).  The Go code is shallowly
embedded: pure computations become Lean functions, the stateful HTTP
handler and worker loops become functions over explicit inputs (parsed
request, environment values, a trace of queue snapshots or engine lines),
and Redis list operations become operations on `List String`.
-/

namespace BlunderBuss

/-! ## Queue broker model (Redis list semantics)

The two lists `stockfish:jobs` and `stockfish:results` are modelled as
`List String`, head of the Lean list = head (left end) of the Redis list.
-/

/-- Redis LPUSH with a single value: inserts the value at the head (left end)
of the list.  Used by the Front-End at `api/main.go:124`. -/
def lpush (l : List String) (v : String) : List String := v :: l

/-- Redis RPUSH with a single value: appends the value at the tail (right
end).  Used by the worker to publish results at `worker/main.go:610`. -/
def rpush (l : List String) (v : String) : List String := l ++ [v]

/-- Redis BLPOP on a non-empty list: removes and returns the head (left end)
element.  On an empty list the blocking call times out (`none` models the
`redis.Nil` outcome).  Used by the worker at `worker/main.go:231`. -/
def blpop (l : List String) : Option (String × List String) :=
  match l with
  | [] => none
  | x :: xs => some (x, xs)

/-- Redis LREM with count 1: removes the first occurrence (scanning from the
head) of the given value, leaving every other element in place.  Used by the
Front-End at `api/main.go:170`. -/
def lrem1 (l : List String) (v : String) : List String :=
  match l with
  | [] => []
  | x :: xs => if x = v then xs else x :: lrem1 xs v

/-! ## Front-End (API) data model, from `api/main.go` lines 29-54. -/

/-- MoveRequest from `api/main.go:29-33`; Go `int` is embedded as `Int`. -/
structure MoveRequest where
  fen : String
  elo : Int
  moveTimeMs : Int
deriving DecidableEq, Repr

/-- MoveResponse from `api/main.go:35-39`. -/
structure MoveResponse where
  bestMove : String
  ponder : String
  info : String
deriving DecidableEq, Repr

/-- Job as declared in the Front-End, `api/main.go:41-46`.  Note: this record
has exactly four fields (`job_id`, `fen`, `elo`, `max_time_ms`); in
particular it carries no correlation identifier. -/
structure Job where
  jobID : String
  fen : String
  elo : Int
  maxTime : Int
deriving DecidableEq, Repr

/-- JobResult as declared in the Front-End, `api/main.go:48-54`. -/
structure JobResult where
  jobID : String
  bestMove : String
  ponder : String
  info : String
  error : String
deriving DecidableEq, Repr

/-! ## Request normalisation, from `api/main.go` lines 94-105. -/

/-- Elo normalisation performed by the `/move` handler (`api/main.go:94-102`):
`0` is replaced by `1600`, then values below `1320` are raised to `1320`,
then values above `3190` are lowered to `3190`. -/
def normalizeElo (elo : Int) : Int :=
  let e1 := if elo = 0 then 1600 else elo
  let e2 := if e1 < 1320 then 1320 else e1
  if e2 > 3190 then 3190 else e2

/-- Move-time normalisation performed by the `/move` handler
(`api/main.go:103-105`): non-positive values become `1000`. -/
def normalizeMoveTime (mt : Int) : Int :=
  if mt ≤ 0 then 1000 else mt

/-- Two's-complement wrap to a signed 64-bit value, the arithmetic of Go's
`int` / `time.Duration` on 64-bit platforms. -/
def int64Wrap (n : Int) : Int :=
  (n + 2 ^ 63) % 2 ^ 64 - 2 ^ 63

/-- The wait timeout in nanoseconds, as both sides compute it:
`time.Duration(ms+5000) * time.Millisecond` (`api/main.go:129`,
`worker/main.go:547`).  Both the `ms+5000` sum and the multiplication by
10^6 are wrapping int64 operations, so for `ms` beyond about 9.22e12 the
resulting duration wraps negative and the deadline lies in the past. -/
def waitTimeoutNs (ms : Int) : Int :=
  int64Wrap (1000000 * int64Wrap (ms + 5000))

/-! ## HTTP response model

Headers are an association list; `setHeader` models `Header().Set`, which
replaces any existing value for the key.
-/

/-- Header map update modelling Go's `Header().Set`: any previous entry for
the key is replaced. -/
def setHeader (hs : List (String × String)) (k v : String) : List (String × String) :=
  hs.filter (fun p => p.1 ≠ k) ++ [(k, v)]

/-- An HTTP response: status code, response headers, body text. -/
structure HttpResponse where
  status : Nat
  headers : List (String × String)
  body : String
deriving DecidableEq, Repr

/-- Go's `http.Error`: sets `Content-Type: text/plain; charset=utf-8` and
`X-Content-Type-Options: nosniff`, writes the status code, and writes the
message followed by a newline. -/
def httpError (hs : List (String × String)) (msg : String) (code : Nat) : HttpResponse :=
  { status := code
    headers := setHeader (setHeader hs "Content-Type" "text/plain; charset=utf-8")
      "X-Content-Type-Options" "nosniff"
    body := msg ++ "\n" }

/-- Headers set by `enableCORS` (`api/main.go:184-189`); `origin` is the value
of `CORS_ALLOW_ORIGIN` (default `*`). -/
def corsHeaders (origin : String) : List (String × String) :=
  [("Access-Control-Allow-Origin", origin),
   ("Access-Control-Allow-Headers", "Content-Type"),
   ("Access-Control-Allow-Methods", "POST, OPTIONS"),
   ("Content-Type", "application/json")]

/-- Health handler of the Front-End (`api/main.go:69-72`).  The source makes
no broker call at all before answering, so the response is the same whatever
the broker's state; the `brokerResponsive` argument records the environment
condition the specification talks about and is (faithfully) ignored. -/
def healthzHandler (_brokerResponsive : Bool) : HttpResponse :=
  { status := 200
    headers := [("Content-Type", "application/json")]
    body := "\x7b\"status\":\"ok\"\x7d\n" }

/-! ## waitForResult, from `api/main.go` lines 153-182

The loop repeatedly (while `time.Now().Before(deadline)`) reads the whole
results list (`LRange 0 -1`), scans it front to back, skips entries that do
not JSON-decode, and on the first entry whose `job_id` matches issues
`LRem 1` for that exact string and returns (an engine error string becomes a
Go error).  A run is described by a trace of loop iterations: the time
observed by the loop condition and the `LRange` outcome (`none` models an
`LRange` error, upon which the code sleeps and retries).  An exhausted trace
stands for a run whose every remaining check happens at or after the
deadline.  JSON decoding (`json.Unmarshal`) is a parameter `decode`.
-/

/-- Match test applied to one results-list entry (`api/main.go:163-169`):
the entry decodes and its `job_id` equals the awaited one. -/
def isMatch (decode : String → Option JobResult) (jobID : String) (s : String) : Bool :=
  match decode s with
  | none => false
  | some r => r.jobID == jobID

/-- Front-to-back scan of one `LRange` snapshot (`api/main.go:163-177`):
returns the first decodable entry whose `job_id` matches, together with the
raw string the handler passes to `LRem`. -/
def findResult (decode : String → Option JobResult) (jobID : String) :
    List String → Option (JobResult × String)
  | [] => none
  | s :: ss =>
    match decode s with
    | none => findResult decode jobID ss
    | some r => if r.jobID == jobID then some (r, s) else findResult decode jobID ss

/-- One trace entry of the wait loop: the time (ns, as `time.Time` compares)
seen by the loop condition, and the `LRange` snapshot (`none` = `LRange`
error). -/
abbrev PollTrace := List (Int × Option (List String))

/-- The wait loop of `waitForResult` (`api/main.go:156-181`), with the
absolute deadline precomputed (`deadline := time.Now().Add(timeout)`).
Returns the Go-level outcome together with the list of `LRem` effects the
run issued, each as (snapshot it acted on, removed string). -/
def waitForResultAux (jobID : String) (deadline : Int)
    (decode : String → Option JobResult) :
    PollTrace → Except String JobResult × List (List String × String)
  | [] => (Except.error "timeout waiting for job result", [])
  | (now, snap?) :: rest =>
    if now < deadline then
      match snap? with
      | none => waitForResultAux jobID deadline decode rest
      | some snap =>
        match findResult decode jobID snap with
        | none => waitForResultAux jobID deadline decode rest
        | some (r, s) =>
          if r.error ≠ "" then
            (Except.error ("engine error: " ++ r.error), [(snap, s)])
          else
            (Except.ok r, [(snap, s)])
    else (Except.error "timeout waiting for job result", [])

/-! ## The `/move` handler, from `api/main.go` lines 73-144

The handler is embedded as a function of the request data and of the
environment behaviour it observes: the parsed JSON body (`Except` carries
the decoder's error message), the wall clock, the `LPush` outcome, and the
poll trace for `waitForResult`.  The request header map is passed in full;
the source handler never reads any request header (only the method and the
body), which the embedding reflects by not consulting this field.

The log statement at `api/main.go:114-115` slices `req.FEN[:20]`, which
panics when the FEN is shorter than 20 bytes; such requests die before the
job is enqueued, and the embedding returns `panicked` for them.
-/

/-- JSON encoding of a MoveResponse (`json.NewEncoder(w).Encode`,
`api/main.go:139-143`): `ponder` and `info` carry `omitempty`; the encoder
terminates the value with a newline. -/
def marshalMoveResponse (m : MoveResponse) : String :=
  "\x7b\"bestmove\":\"" ++ m.bestMove ++ "\"" ++
    (if m.ponder = "" then "" else ",\"ponder\":\"" ++ m.ponder ++ "\"") ++
    (if m.info = "" then "" else ",\"info\":\"" ++ m.info ++ "\"") ++
    "\x7d\n"

/-- Input to one `/move` handler invocation. -/
structure HandlerInput where
  method : String
  reqHeaders : List (String × String)
  corsOrigin : String
  body : Except String MoveRequest
  nowNanos : Int
  pushErr : Option String
  decode : String → Option JobResult
  startNs : Int
  trace : PollTrace

/-- Outcome of one `/move` handler invocation: either an HTTP response
together with the job enqueued on `stockfish:jobs` (if any), or a panic in
the handler (connection dropped, nothing enqueued). -/
inductive HandlerResult where
  | response (resp : HttpResponse) (enqueued : Option Job)
  | panicked
deriving DecidableEq, Repr

/-- Job record built by the `/move` handler (`api/main.go:106-112`): the job
identifier is `job_{UnixNano}_{elo}` with the already-normalised Elo, and the
payload carries the normalised Elo and move time. -/
def jobFor (req : MoveRequest) (nowNanos : Int) : Job :=
  { jobID := "job_" ++ toString nowNanos ++ "_" ++ toString (normalizeElo req.elo)
    fen := req.fen
    elo := normalizeElo req.elo
    maxTime := normalizeMoveTime req.moveTimeMs }

/-- The `/move` handler (`api/main.go:73-144`). -/
def moveHandler (input : HandlerInput) : HandlerResult :=
  let hs := corsHeaders input.corsOrigin
  if input.method = "OPTIONS" then
    HandlerResult.response { status := 204, headers := hs, body := "" } none
  else if input.method ≠ "POST" then
    HandlerResult.response (httpError hs "POST only" 405) none
  else
    match input.body with
    | Except.error e => HandlerResult.response (httpError hs ("bad json: " ++ e) 400) none
    | Except.ok req =>
      if req.fen = "" then
        HandlerResult.response (httpError hs "missing fen" 400) none
      else
        let job : Job := jobFor req input.nowNanos
        if req.fen.utf8ByteSize < 20 then
          HandlerResult.panicked
        else
          match input.pushErr with
          | some e =>
            HandlerResult.response (httpError hs ("failed to queue job: " ++ e) 503) none
          | none =>
            let deadline := input.startNs + waitTimeoutNs (normalizeMoveTime req.moveTimeMs)
            match waitForResultAux job.jobID deadline input.decode input.trace with
            | (Except.error e, _) =>
              HandlerResult.response (httpError hs ("job timeout or error: " ++ e) 408) (some job)
            | (Except.ok r, _) =>
              HandlerResult.response
                { status := 200
                  headers := setHeader hs "Content-Type" "application/json"
                  body := marshalMoveResponse
                    { bestMove := r.bestMove, ponder := r.ponder, info := r.info } }
                (some job)

/-- Status code of a handler outcome (0 for a dropped connection). -/
def handlerStatus : HandlerResult → Nat
  | HandlerResult.response r _ => r.status
  | HandlerResult.panicked => 0

/-- Response headers of a handler outcome. -/
def handlerHeaders : HandlerResult → List (String × String)
  | HandlerResult.response r _ => r.headers
  | HandlerResult.panicked => []

/-- Response body of a handler outcome. -/
def handlerBody : HandlerResult → String
  | HandlerResult.response r _ => r.body
  | HandlerResult.panicked => ""

/-- Job enqueued on `stockfish:jobs` during a handler outcome. -/
def handlerJob : HandlerResult → Option Job
  | HandlerResult.response _ j => j
  | HandlerResult.panicked => none

/-- Handler input for an ordinary POST with a well-formed body and a
successful `LPush`. -/
def mkMoveInput (req : MoveRequest) (hdrs : List (String × String)) (origin : String)
    (nowNanos startNs : Int) (decode : String → Option JobResult)
    (trace : PollTrace) : HandlerInput :=
  { method := "POST", reqHeaders := hdrs, corsOrigin := origin
    body := Except.ok req, nowNanos := nowNanos, pushErr := none
    decode := decode, startNs := startNs, trace := trace }

/-- The standard chess starting position (56 bytes of FEN). -/
def startposFEN : String :=
  "rnbqkbnr/pppppppp/8/8/8/8/PPPPPPPP/RNBQKBNR w KQkq - 0 1"

/-- A sample well-formed move request. -/
def startposReq : MoveRequest :=
  { fen := startposFEN, elo := 1600, moveTimeMs := 1000 }

/-- A sample decoder: the results-list entry `c1res` decodes to a successful
result for job `job_0_1600`; everything else fails to decode. -/
def okDecode : String → Option JobResult := fun s =>
  if s = "c1res" then
    some { jobID := "job_0_1600", bestMove := "e2e4", ponder := "e7e5",
           info := "", error := "" }
  else none

/-- A sample `/move` invocation: POST carrying an `X-Correlation-ID` header,
valid body, successful push, and a first poll that finds the result. -/
def baseInput : HandlerInput :=
  { method := "POST"
    reqHeaders := [("X-Correlation-ID", "trace-xyz"), ("Content-Type", "application/json")]
    corsOrigin := "*"
    body := Except.ok startposReq
    nowNanos := 0
    pushErr := none
    decode := okDecode
    startNs := 0
    trace := [(0, some ["c1res"])] }

/-- A sample decoder for the results list where `rx` does not decode and both
`ra` and `rb` decode to results for job `jobW`. -/
def resultsDecode : String → Option JobResult := fun s =>
  if s = "ra" then
    some { jobID := "jobW", bestMove := "e2e4", ponder := "", info := "", error := "" }
  else if s = "rb" then
    some { jobID := "jobW", bestMove := "d2d4", ponder := "", info := "", error := "" }
  else none

/-! ## Circuit breaker, from `pkg/circuitbreaker/circuitbreaker.go`

The worker's engine breaker is built by `NewStockfishCircuitBreaker`
(lines 177-215) on top of sony/gobreaker.  gobreaker's counts: every call
increments `Requests`; a success increments `TotalSuccesses` and
`ConsecutiveSuccesses` and clears `ConsecutiveFailures`; a failure
increments `TotalFailures` and `ConsecutiveFailures` and clears
`ConsecutiveSuccesses`.  In the Closed state, after recording a failure the
breaker opens iff `ReadyToTrip` holds of the updated counts.
-/

/-- Counts kept by gobreaker. -/
structure Counts where
  requests : Nat
  totalSuccesses : Nat
  totalFailures : Nat
  consecutiveSuccesses : Nat
  consecutiveFailures : Nat
deriving DecidableEq, Repr

/-- gobreaker's update of the counts on a successful call. -/
def onSuccess (c : Counts) : Counts :=
  { c with
    totalSuccesses := c.totalSuccesses + 1
    consecutiveSuccesses := c.consecutiveSuccesses + 1
    consecutiveFailures := 0 }

/-- gobreaker's update of the counts on a failed call. -/
def onFailure (c : Counts) : Counts :=
  { c with
    totalFailures := c.totalFailures + 1
    consecutiveFailures := c.consecutiveFailures + 1
    consecutiveSuccesses := 0 }

/-- Configuration record from `circuitbreaker.go:34-39`. -/
structure Config where
  failureThreshold : Nat
  successThreshold : Nat
  timeoutSec : Nat
  maxRequests : Nat
deriving DecidableEq, Repr

/-- StockfishCircuitBreakerConfig (`circuitbreaker.go:148-155`): open after 5
failures, 30 s timeout, 1 success to close, 1 half-open probe. -/
def StockfishCircuitBreakerConfig : Config :=
  { failureThreshold := 5, successThreshold := 1, timeoutSec := 30, maxRequests := 1 }

/-- ReadyToTrip of `NewStockfishCircuitBreaker` (`circuitbreaker.go:185-189`):
`counts.ConsecutiveFailures >= 5 || (counts.Requests >= 5 &&
float64(counts.TotalFailures)/float64(counts.Requests) >= 0.5)`.
For the magnitudes involved the float64 comparison is exact and equals the
rational comparison `2 * TotalFailures >= Requests` (0.5 is representable,
and a quotient below 1/2 with denominator < 2^32 is more than half an ulp
away from 0.5, so rounding never crosses the threshold). -/
def stockfishReadyToTrip (c : Counts) : Bool :=
  decide (StockfishCircuitBreakerConfig.failureThreshold ≤ c.consecutiveFailures) ||
    (decide (StockfishCircuitBreakerConfig.failureThreshold ≤ c.requests) &&
      decide (c.requests ≤ 2 * c.totalFailures))

/-- One call through the breaker while it is Closed (`gobreaker.Execute`):
the request is counted, its outcome recorded, and on a failure the breaker
trips (moves Closed → Open) iff `ReadyToTrip` holds of the updated counts.
`success = true` models a successful call.  Returns the updated counts and
whether the breaker tripped. -/
def closedStep (c : Counts) (success : Bool) : Counts × Bool :=
  let c1 := { c with requests := c.requests + 1 }
  if success then (onSuccess c1, false)
  else
    let c2 := onFailure c1
    (c2, stockfishReadyToTrip c2)

/-- A run of calls through the Closed breaker (all within one 60 s counting
interval, so the counts are never cleared): stops at the first trip. -/
def runClosed (c : Counts) : List Bool → Counts × Bool
  | [] => (c, false)
  | o :: os =>
    let step := closedStep c o
    if step.2 then (step.1, true) else runClosed step.1 os

/-- Fresh counts at breaker creation. -/
def initCounts : Counts :=
  { requests := 0, totalSuccesses := 0, totalFailures := 0,
    consecutiveSuccesses := 0, consecutiveFailures := 0 }


end BlunderBuss

namespace BlunderBuss.Worker

/-! ## Processor (worker) embedding, from `worker/main.go`. -/

/-- Job as declared in the worker (`worker/main.go:65-72`); unlike the
Front-End's record it carries `correlation_id` and `created_at`. -/
structure Job where
  jobID : String
  correlationID : String
  fen : String
  elo : Int
  maxTime : Int
  createdAt : String
deriving DecidableEq, Repr

/-- Go's `unicode.IsSpace`: the Unicode White_Space property (U+0009-U+000D,
space, NEL, NBSP, U+1680, U+2000-U+200A, U+2028, U+2029, U+202F, U+205F,
U+3000). -/
def goIsSpace (c : Char) : Bool :=
  (0x09 ≤ c.val && c.val ≤ 0x0D) || c.val = 0x20 || c.val = 0x85 || c.val = 0xA0 ||
    c.val = 0x1680 || (0x2000 ≤ c.val && c.val ≤ 0x200A) || c.val = 0x2028 ||
    c.val = 0x2029 || c.val = 0x202F || c.val = 0x205F || c.val = 0x3000

/-- Go's `strings.TrimSpace`: drop leading and trailing Unicode whitespace
characters. -/
def goTrimSpace (s : String) : String :=
  String.mk (((s.data.dropWhile goIsSpace).reverse.dropWhile
    goIsSpace).reverse)

/-- Character-list prefix test (structural recursion). -/
def hasPrefixChars : List Char → List Char → Bool
  | [], _ => true
  | _ :: _, [] => false
  | p :: ps, c :: cs => if p = c then hasPrefixChars ps cs else false

/-- Go's `strings.HasPrefix`. -/
def goHasPrefix (s pre : String) : Bool :=
  hasPrefixChars pre.data s.data

/-- Position command chosen by `executeChessComputation`
(`worker/main.go:530-534`): `position startpos` when the FEN is empty or
whitespace (strings.TrimSpace), else `position fen {fen}`. -/
def positionCommand (fen : String) : String :=
  if goTrimSpace fen = "" then "position startpos" else "position fen " ++ fen

/-- Think time used for the `go` command (`worker/main.go:537-540`):
the job's `max_time_ms`, defaulting to 1000 when non-positive. -/
def thinkMs (maxTime : Int) : Int :=
  if maxTime ≤ 0 then 1000 else maxTime

/-- The `go movetime` command sent at `worker/main.go:542`. -/
def goCommand (maxTime : Int) : String :=
  "go movetime " ++ toString (thinkMs maxTime)

/-- Worker for `goFields`: accumulate the current word (reversed) while
splitting at whitespace runs. -/
def goFieldsAux : List Char → List Char → List String
  | acc, [] => if acc = [] then [] else [String.mk acc.reverse]
  | acc, c :: cs =>
    if goIsSpace c then
      if acc = [] then goFieldsAux [] cs
      else String.mk acc.reverse :: goFieldsAux [] cs
    else goFieldsAux (c :: acc) cs

/-- Go's `strings.Fields`: split on whitespace runs, dropping empty pieces. -/
def goFields (s : String) : List String :=
  goFieldsAux [] s.data

/-- Parse of a `bestmove` line (`worker/main.go:569-575`): the best move is
the second field (empty when absent); the ponder move is the fourth field
when the third field is `ponder`. -/
def parseBestmoveLine (l : String) : String × String :=
  let fs := goFields l
  (fs.getD 1 "", if fs.getD 2 "" = "ponder" then fs.getD 3 "" else "")

/-- One read event in the bestmove wait loop: a 500 ms read deadline expiry
(loop continues), a non-timeout read error (loop aborts), or a received
line. -/
inductive ReadEvent where
  | readTimeout
  | ioErr (msg : String)
  | line (raw : String)
deriving DecidableEq, Repr

/-- The bestmove wait loop (`worker/main.go:546-585`), run over a trace of
(time at the loop condition, read event).  `infoLines` accumulates the
trimmed lines that start with `info `.  An exhausted trace stands for a run
whose every remaining check happens at or after the deadline. -/
def waitBestmoveAux (deadline : Int) (infoLines : List String) :
    List (Int × ReadEvent) → Except String (String × String × String)
  | [] => Except.error "timeout waiting for bestmove"
  | (now, ev) :: rest =>
    if now < deadline then
      match ev with
      | ReadEvent.readTimeout => waitBestmoveAux deadline infoLines rest
      | ReadEvent.ioErr e => Except.error ("engine read error: " ++ e)
      | ReadEvent.line raw =>
        let l := goTrimSpace raw
        if l = "" then waitBestmoveAux deadline infoLines rest
        else if goHasPrefix l "info " then waitBestmoveAux deadline (infoLines ++ [l]) rest
        else if goHasPrefix l "bestmove " then
          let parsed := parseBestmoveLine l
          if parsed.1 = "" then Except.error "no bestmove received"
          else Except.ok (parsed.1, parsed.2, String.intercalate "\n" infoLines)
        else waitBestmoveAux deadline infoLines rest
    else Except.error "timeout waiting for bestmove"

/-- Commands sent and outcome of the position/compute phase of
`executeChessComputation` (`worker/main.go:529-586`), after the UCI
handshake: the position command, the go command, then the bestmove wait
with deadline `start + thinkMs + 5000` ms. -/
structure EngineRun where
  commands : List String
  outcome : Except String (String × String × String)

/-- Position/compute phase of `executeChessComputation` for one job:
`start` is the time at which the deadline is taken
(`time.Now().Add(moveTimeMs+5000ms)`, `worker/main.go:547`). -/
def executeChessComputation (job : Job) (start : Int)
    (trace : List (Int × ReadEvent)) : EngineRun :=
  { commands := [positionCommand job.fen, goCommand job.maxTime]
    outcome := waitBestmoveAux (start + waitTimeoutNs (thinkMs job.maxTime)) [] trace }

/-! ## Graceful shutdown, from `worker/main.go` lines 118-125 and 189-272. -/

/-- Action taken at the top of each `processJobs` loop iteration
(`worker/main.go:192-231`): the `select` prefers the ready shutdown channel
over the `default` branch, so once the shutdown signal has been raised no
further `BLPop` is issued; otherwise the iteration issues a blocking pop. -/
inductive PopAction where
  | blpopIssued
  | drainStarted
deriving DecidableEq, Repr

/-- Loop-entry decision of `processJobs`. -/
def loopEntryAction (shutdownRaised : Bool) : PopAction :=
  if shutdownRaised then PopAction.drainStarted else PopAction.blpopIssued

/-- Poll interval of the drain loop (`worker/main.go:209`): 100 ms. -/
def shutdownPollMs : Nat := 100

/-- Drain deadline (`worker/main.go:205`): 30 s. -/
def shutdownTimeoutMs : Nat := 30000

/-- Exit of the drain loop: clean exit at the poll tick where the active-job
counter was observed to be zero, or forced exit at the 30 s deadline. -/
inductive DrainExit where
  | allJobsCompleted (tick : Nat)
  | forced
deriving DecidableEq, Repr

/-- The drain loop (`worker/main.go:212-227`): the counter is checked at
tick 0 (immediately) and then after each 100 ms ticker fire; when the 30 s
context expires the loop exits forced.  `counts k` is the value of the
active-job counter observed at the k-th poll. -/
def drainLoop (counts : Nat → Nat) : Nat → Nat → DrainExit
  | _, 0 => DrainExit.forced
  | tick, fuel + 1 =>
    if counts tick = 0 then DrainExit.allJobsCompleted tick
    else drainLoop counts (tick + 1) fuel

/-- The whole drain phase entered by `processJobs` on shutdown: polls every
`shutdownPollMs` up to the `shutdownTimeoutMs` deadline. -/
def processorShutdown (counts : Nat → Nat) : DrainExit :=
  drainLoop counts 0 (shutdownTimeoutMs / shutdownPollMs)

end BlunderBuss.Worker

namespace BlunderBuss

/-! ## Claims -/

/-- C1.  The claim says a `POST /move` request carrying
`X-Correlation-ID=X` is answered with that header and the enqueued Job
carries `X`.  The `/move` handler never reads or writes any request header:
on a successful request the response carries no `X-Correlation-ID` header,
the enqueued Job is the four-field record without any correlation
identifier, and the whole outcome is unchanged when the header is removed
from the request. -/
theorem C1_move_handler_drops_correlation_header :
    handlerStatus (moveHandler baseInput) = 200 ∧
    (handlerHeaders (moveHandler baseInput)).filter
      (fun p => p.1 = "X-Correlation-ID") = [] ∧
    handlerJob (moveHandler baseInput) =
      some { jobID := "job_0_1600", fen := startposFEN, elo := 1600, maxTime := 1000 } ∧
    moveHandler baseInput = moveHandler { baseInput with reqHeaders := [] } := by
  exact ⟨rfl, rfl, rfl, rfl⟩

/-- C2 counterexample.  Enqueuing `jobA` then `jobB` (both still pending) and
dequeuing with BLPOP yields `jobB` first: LPUSH and BLPOP both act on the
head of the list, so the dequeue order is the reverse of the enqueue
order, contradicting FIFO. -/
theorem C2_jobs_queue_not_fifo :
    blpop (lpush (lpush [] "jobA") "jobB") = some ("jobB", ["jobA"]) ∧
    ("jobB" : String) ≠ "jobA" := by
  exact ⟨rfl, by decide⟩

/-- C2 amended.  The jobs list is LIFO: the Front-End's LPUSH inserts at the
head and the Processor's BLPOP removes from the head, so the most recently
enqueued pending job is always the one dequeued. -/
theorem C2_jobs_queue_lifo :
    ∀ (l : List String) (v : String), blpop (lpush l v) = some (v, l) :=
  fun _ _ => rfl

/-- C3 counterexample.  With the broker unresponsive the Front-End health
endpoint still answers 200 (not 503) and its body is `{"status":"ok"}`,
with no `redis_connected`, `queue_depth` or `timestamp` field. -/
theorem C3_healthz_ignores_broker :
    (healthzHandler false).status = 200 ∧
    (healthzHandler false).status ≠ 503 ∧
    (healthzHandler false).body = "\x7b\"status\":\"ok\"\x7d\n" := by
  exact ⟨rfl, by decide, rfl⟩

/-- C3 amended.  The Front-End `/healthz` handler performs no broker probe
and always returns HTTP 200 with body `{"status":"ok"}`. -/
theorem C3_healthz_always_ok :
    ∀ (brokerResponsive : Bool),
      healthzHandler brokerResponsive =
        { status := 200, headers := [("Content-Type", "application/json")],
          body := "\x7b\"status\":\"ok\"\x7d\n" } :=
  fun _ => rfl

/-- C4 counterexample.  When the `LPush` fails, the response is 503 but
carries no `Retry-After` header, and its body is the plain text
`failed to queue job: <error>` rather than the claimed JSON envelope. -/
theorem C4_no_retry_after_header :
    handlerStatus (moveHandler { baseInput with pushErr := some "connection refused" }) = 503 ∧
    (handlerHeaders (moveHandler { baseInput with pushErr := some "connection refused" })).filter
      (fun p => p.1 = "Retry-After") = [] ∧
    handlerBody (moveHandler { baseInput with pushErr := some "connection refused" }) =
      "failed to queue job: connection refused\n" := by
  exact ⟨rfl, rfl, rfl⟩

/-- C4 amended.  The Front-End publishes the job with a single bare `LPush`
(no circuit breaker, no retry); whenever that push fails it responds 503
with the plain-text body `failed to queue job: <error>`, no `Retry-After`
header, and nothing enqueued. -/
theorem C4_queue_push_failure_503 :
    ∀ (req : MoveRequest) (hdrs : List (String × String)) (origin : String)
      (nowNanos startNs : Int) (decode : String → Option JobResult)
      (trace : PollTrace) (e : String),
      req.fen ≠ "" → 20 ≤ req.fen.utf8ByteSize →
      moveHandler { method := "POST", reqHeaders := hdrs, corsOrigin := origin,
                    body := Except.ok req, nowNanos := nowNanos,
                    pushErr := some e, decode := decode,
                    startNs := startNs, trace := trace } =
        HandlerResult.response
          (httpError (corsHeaders origin) ("failed to queue job: " ++ e) 503) none ∧
      (httpError (corsHeaders origin) ("failed to queue job: " ++ e) 503).headers.filter
        (fun p => p.1 = "Retry-After") = [] := by
  intro req hdrs origin nowNanos startNs decode trace e hfen h20
  constructor
  · simp [moveHandler, hfen, Nat.not_lt.mpr h20]
  · rfl

/-- C4 amended, witness at a concrete failing push. -/
theorem C4_queue_push_failure_503_witness :
    moveHandler { method := "POST", reqHeaders := [], corsOrigin := "*",
                  body := Except.ok startposReq, nowNanos := 0,
                  pushErr := some "connection refused",
                  decode := okDecode, startNs := 0, trace := [] } =
      HandlerResult.response
        (httpError (corsHeaders "*") ("failed to queue job: " ++ "connection refused") 503)
        none := by
  exact (C4_queue_push_failure_503 startposReq [] "*" 0 0 okDecode [] "connection refused"
    (by decide) (by decide)).1

/-- C5.  Request normalisation in the `/move` handler: Elo 0 becomes 1600,
any other Elo below 1320 becomes 1320, any Elo above 3190 becomes 3190,
Elo inside [1320, 3190] is unchanged, and a non-positive move time becomes
1000 while a positive one is unchanged. -/
theorem C5_normalisation :
    ∀ (elo mt : Int),
      normalizeElo 0 = 1600 ∧
      normalizeElo 1319 = 1320 ∧
      normalizeElo 3191 = 3190 ∧
      (elo ≠ 0 → elo < 1320 → normalizeElo elo = 1320) ∧
      (3190 < elo → normalizeElo elo = 3190) ∧
      (1320 ≤ elo → elo ≤ 3190 → normalizeElo elo = elo) ∧
      (mt ≤ 0 → normalizeMoveTime mt = 1000) ∧
      (0 < mt → normalizeMoveTime mt = mt) := by
  intro elo mt
  refine ⟨by decide, by decide, by decide, ?_, ?_, ?_, ?_, ?_⟩ <;>
    · intros
      simp only [normalizeElo, normalizeMoveTime]
      split_ifs <;> omega

/-- C5, witness at Elo -7 (clamped up) and move time 0 (defaulted). -/
theorem C5_normalisation_witness :
    normalizeElo (-7) = 1320 ∧ normalizeMoveTime 0 = 1000 := by
  exact ⟨(C5_normalisation (-7) 0).2.2.2.1 (by decide) (by decide),
         (C5_normalisation (-7) 0).2.2.2.2.2.2.1 (by decide)⟩

/-- C7 counterexample.  The engine breaker's ReadyToTrip trips after the
outcome run failure, failure, success, failure, failure: five requests with
failure ratio 4/5 ≥ 0.5, although only 2 consecutive failures (< the
threshold of 5) ever occurred — so patterns other than 5 consecutive
failures also move the breaker from Closed to Open. -/
theorem C7_ratio_trip_counterexample :
    (runClosed initCounts [false, false, true, false, false]).2 = true ∧
    (runClosed initCounts [false, false, true, false, false]).1.consecutiveFailures = 2 ∧
    (runClosed initCounts [false, false, true, false, false]).1.consecutiveFailures <
      StockfishCircuitBreakerConfig.failureThreshold := by
  exact ⟨rfl, rfl, by decide⟩

/-- C7 amended.  In the Closed state a call trips the engine breaker exactly
when it fails and, counting that call, either the consecutive-failure count
reaches the threshold 5, or at least 5 requests were made of which at least
half failed. -/
theorem C7_trip_condition :
    ∀ (c : Counts) (o : Bool),
      (closedStep c o).2 = true ↔
        (o = false ∧
          (StockfishCircuitBreakerConfig.failureThreshold ≤ c.consecutiveFailures + 1 ∨
            (StockfishCircuitBreakerConfig.failureThreshold ≤ c.requests + 1 ∧
              c.requests + 1 ≤ 2 * (c.totalFailures + 1)))) := by
  intro c o
  cases o <;>
    simp [closedStep, onFailure, onSuccess, stockfishReadyToTrip,
      StockfishCircuitBreakerConfig]

/-- Helper: the wait loop times out when no polled snapshot contains a
matching record. -/
theorem waitForResultAux_no_match (jid : String) (deadline : Int)
    (decode : String → Option JobResult) :
    ∀ (trace : PollTrace),
      (∀ p ∈ trace, ∀ snap, p.2 = some snap → findResult decode jid snap = none) →
      waitForResultAux jid deadline decode trace =
        (Except.error "timeout waiting for job result", []) := by
  intro trace
  induction trace with
  | nil => intro _; rfl
  | cons p rest ih =>
    intro h
    obtain ⟨now, snap?⟩ := p
    by_cases hlt : now < deadline
    · cases snap? with
      | none =>
        simp only [waitForResultAux, if_pos hlt]
        exact ih (fun q hq => h q (List.mem_cons_of_mem _ hq))
      | some snap =>
        have hf := h (now, some snap) (List.mem_cons_self _ _) snap rfl
        simp only [waitForResultAux, if_pos hlt, hf]
        exact ih (fun q hq => h q (List.mem_cons_of_mem _ hq))
    · simp only [waitForResultAux, if_neg hlt]

/-- Helper: the normalised move time is always at least 1. -/
theorem one_le_normalizeMoveTime (mt : Int) : 1 ≤ normalizeMoveTime mt := by
  simp only [normalizeMoveTime]
  split_ifs <;> omega

/-- C6 counterexample.  At `movetime_ms = 10^13` the int64 product
`(movetime_ms+5000)·10^6` wraps negative, so although an error-free matching
result is present at the very first poll — 0 ns after the wait begins,
vastly before the nominal `movetime_ms + 5000` ms deadline — the handler
answers the 408 timeout instead of 200: the Front-End does not wait
`movetime_ms + 5000` ms. -/
theorem C6_overflow_counterexample :
    moveHandler (mkMoveInput
        { fen := startposFEN, elo := 1600, moveTimeMs := 10000000000000 }
        [] "*" 0 0 okDecode [(0, some ["c1res"])]) =
      HandlerResult.response
        (httpError (corsHeaders "*")
          "job timeout or error: timeout waiting for job result" 408)
        (some (jobFor { fen := startposFEN, elo := 1600, moveTimeMs := 10000000000000 } 0)) ∧
    findResult okDecode "job_0_1600" ["c1res"] =
      some ({ jobID := "job_0_1600", bestMove := "e2e4", ponder := "e7e5",
              info := "", error := "" }, "c1res") ∧
    (0 : Int) < 0 + (normalizeMoveTime 10000000000000 + 5000) ∧
    waitTimeoutNs (normalizeMoveTime 10000000000000) < 0 := by
  exact ⟨rfl, rfl, by decide, by decide⟩

/-- C6 amended.  For a request whose job gets published, the wait duration is
the wrapping 64-bit conversion of `movetime_ms + 5000` to nanoseconds.  When
that conversion does not overflow (`movetime_ms + 5000 ≤ 9223372036854`,
about 292 years) it equals `movetime_ms + 5000` ms exactly, and then: a
first poll happening at exactly the deadline produces the 408 timeout
response whatever the results list holds; a run none of whose polled
snapshots contains a matching record produces the 408 timeout response; a
poll strictly before the deadline whose first matching record carries a
non-empty error produces a 408 response carrying the engine's error string;
and one whose first matching record is error-free produces the 200
response.  When the conversion wraps negative, the deadline lies in the
past and the handler responds 408 immediately. -/
theorem C6_result_wait_deadline :
    ∀ (req : MoveRequest) (hdrs : List (String × String)) (origin : String)
      (nowNanos startNs : Int) (decode : String → Option JobResult),
      req.fen ≠ "" → 20 ≤ req.fen.utf8ByteSize →
      ((normalizeMoveTime req.moveTimeMs + 5000 ≤ 9223372036854 →
          waitTimeoutNs (normalizeMoveTime req.moveTimeMs) =
            (normalizeMoveTime req.moveTimeMs + 5000) * 1000000) ∧
        (∀ (snap : Option (List String)) (rest : PollTrace),
          moveHandler (mkMoveInput req hdrs origin nowNanos startNs decode
              ((startNs + waitTimeoutNs (normalizeMoveTime req.moveTimeMs), snap) :: rest)) =
            HandlerResult.response
              (httpError (corsHeaders origin)
                "job timeout or error: timeout waiting for job result" 408)
              (some (jobFor req nowNanos))) ∧
        (∀ (trace : PollTrace),
          (∀ p ∈ trace, ∀ snap, p.2 = some snap →
            findResult decode (jobFor req nowNanos).jobID snap = none) →
          moveHandler (mkMoveInput req hdrs origin nowNanos startNs decode trace) =
            HandlerResult.response
              (httpError (corsHeaders origin)
                "job timeout or error: timeout waiting for job result" 408)
              (some (jobFor req nowNanos))) ∧
        (∀ (t : Int) (snap : List String) (rest : PollTrace) (r : JobResult) (s : String),
          t < startNs + waitTimeoutNs (normalizeMoveTime req.moveTimeMs) →
          findResult decode (jobFor req nowNanos).jobID snap = some (r, s) →
          r.error ≠ "" →
          moveHandler (mkMoveInput req hdrs origin nowNanos startNs decode
              ((t, some snap) :: rest)) =
            HandlerResult.response
              (httpError (corsHeaders origin)
                ("job timeout or error: " ++ ("engine error: " ++ r.error)) 408)
              (some (jobFor req nowNanos))) ∧
        (∀ (t : Int) (snap : List String) (rest : PollTrace) (r : JobResult) (s : String),
          t < startNs + waitTimeoutNs (normalizeMoveTime req.moveTimeMs) →
          findResult decode (jobFor req nowNanos).jobID snap = some (r, s) →
          r.error = "" →
          moveHandler (mkMoveInput req hdrs origin nowNanos startNs decode
              ((t, some snap) :: rest)) =
            HandlerResult.response
              { status := 200
                headers := setHeader (corsHeaders origin) "Content-Type" "application/json"
                body := marshalMoveResponse
                  { bestMove := r.bestMove, ponder := r.ponder, info := r.info } }
              (some (jobFor req nowNanos))) ∧
        (waitTimeoutNs (normalizeMoveTime req.moveTimeMs) < 0 →
          ∀ (trace : PollTrace), (∀ p ∈ trace, startNs ≤ p.1) →
          moveHandler (mkMoveInput req hdrs origin nowNanos startNs decode trace) =
            HandlerResult.response
              (httpError (corsHeaders origin)
                "job timeout or error: timeout waiting for job result" 408)
              (some (jobFor req nowNanos)))) := by
  intro req hdrs origin nowNanos startNs decode hfen h20
  refine ⟨?_, ?_, ?_, ?_, ?_, ?_⟩
  · intro h
    have h1 := one_le_normalizeMoveTime req.moveTimeMs
    simp only [waitTimeoutNs, int64Wrap]
    omega
  · intro snap rest
    simp [moveHandler, mkMoveInput, hfen, Nat.not_lt.mpr h20, waitForResultAux]
  · intro trace h
    have hw := waitForResultAux_no_match (jobFor req nowNanos).jobID
      (startNs + waitTimeoutNs (normalizeMoveTime req.moveTimeMs)) decode trace h
    simp [moveHandler, mkMoveInput, hfen, Nat.not_lt.mpr h20, hw]
  · intro t snap rest r s ht hf herr
    simp [moveHandler, mkMoveInput, hfen, Nat.not_lt.mpr h20, waitForResultAux, ht, hf, herr]
  · intro t snap rest r s ht hf herr
    simp [moveHandler, mkMoveInput, hfen, Nat.not_lt.mpr h20, waitForResultAux, ht, hf, herr]
  · intro hneg trace hts
    cases trace with
    | nil => simp [moveHandler, mkMoveInput, hfen, Nat.not_lt.mpr h20, waitForResultAux]
    | cons p rest =>
      obtain ⟨pt, ps⟩ := p
      have hp := hts (pt, ps) (List.mem_cons_self _ _)
      have hnl : ¬ (pt < startNs + waitTimeoutNs (normalizeMoveTime req.moveTimeMs)) := by
        simp only at hp
        omega
      simp [moveHandler, mkMoveInput, hfen, Nat.not_lt.mpr h20, waitForResultAux, hnl]

/-- C6, witness: a concrete request (normalised move time 1000, no overflow,
hence deadline 6·10^9 ns after the wait starts) whose first poll finds the
error-free matching record, answered 200. -/
theorem C6_result_wait_deadline_witness :
    moveHandler (mkMoveInput startposReq [] "*" 0 0 okDecode [(0, some ["c1res"])]) =
      HandlerResult.response
        { status := 200
          headers := setHeader (corsHeaders "*") "Content-Type" "application/json"
          body := marshalMoveResponse { bestMove := "e2e4", ponder := "e7e5", info := "" } }
        (some (jobFor startposReq 0)) := by
  exact (C6_result_wait_deadline startposReq [] "*" 0 0 okDecode
      (by decide) (by decide)).2.2.2.2.1
    0 ["c1res"] []
    { jobID := "job_0_1600", bestMove := "e2e4", ponder := "e7e5", info := "", error := "" }
    "c1res" (by decide) (by decide) rfl

/-- Helper: the bestmove wait loop times out as soon as the loop condition
sees a time at or past the deadline. -/
theorem waitBestmoveAux_deadline (deadline : Int) (acc : List String) :
    ∀ (trace : List (Int × Worker.ReadEvent)),
      (∀ p ∈ trace, deadline ≤ p.1) →
      Worker.waitBestmoveAux deadline acc trace =
        Except.error "timeout waiting for bestmove" := by
  intro trace h
  cases trace with
  | nil => rfl
  | cons p rest =>
    obtain ⟨now, ev⟩ := p
    have hge := h (now, ev) (List.mem_cons_self _ _)
    simp only [Worker.waitBestmoveAux, if_neg (not_lt.mpr hge)]

/-- Helper: a run of `info` lines followed by a well-formed `bestmove` line,
all read before the deadline, yields the parsed best move and ponder move
and the collected info lines. -/
theorem waitBestmoveAux_collects (deadline : Int) :
    ∀ (pre : List (Int × String)) (acc : List String) (tb : Int) (bmRaw : String)
      (rest : List (Int × Worker.ReadEvent)),
      (∀ p ∈ pre, p.1 < deadline ∧ Worker.goTrimSpace p.2 ≠ "" ∧ Worker.goHasPrefix (Worker.goTrimSpace p.2) "info " = true) →
      tb < deadline →
      Worker.goTrimSpace bmRaw ≠ "" →
      Worker.goHasPrefix (Worker.goTrimSpace bmRaw) "info " = false →
      Worker.goHasPrefix (Worker.goTrimSpace bmRaw) "bestmove " = true →
      (Worker.parseBestmoveLine (Worker.goTrimSpace bmRaw)).1 ≠ "" →
      Worker.waitBestmoveAux deadline acc
          (pre.map (fun p => (p.1, Worker.ReadEvent.line p.2)) ++
            (tb, Worker.ReadEvent.line bmRaw) :: rest) =
        Except.ok ((Worker.parseBestmoveLine (Worker.goTrimSpace bmRaw)).1,
          (Worker.parseBestmoveLine (Worker.goTrimSpace bmRaw)).2,
          String.intercalate "\n" (acc ++ pre.map (fun p => Worker.goTrimSpace p.2))) := by
  intro pre
  induction pre with
  | nil =>
    intro acc tb bmRaw rest _ htb hne hinfo hbm hparse
    simp [Worker.waitBestmoveAux, htb, hne, hinfo, hbm, hparse]
  | cons p pre ih =>
    intro acc tb bmRaw rest hpre htb hne hinfo hbm hparse
    obtain ⟨tp, sp⟩ := p
    obtain ⟨h1, h2, h3⟩ := hpre (tp, sp) (List.mem_cons_self _ _)
    have hrec := ih (acc ++ [Worker.goTrimSpace sp]) tb bmRaw rest
      (fun q hq => hpre q (List.mem_cons_of_mem _ hq)) htb hne hinfo hbm hparse
    simp only [List.map_cons, List.cons_append, Worker.waitBestmoveAux, if_pos h1]
    simp only [h2, h3, if_true, ite_false, if_neg h2]
    simpa [List.append_assoc] using hrec

/-- Helper: the defaulted think time is always at least 1. -/
theorem one_le_thinkMs (mt : Int) : 1 ≤ Worker.thinkMs mt := by
  simp only [Worker.thinkMs]
  split_ifs <;> omega

/-- C8 counterexample.  At `max_time_ms = 10^13` the int64 product
`(think_ms+5000)·10^6` wraps negative, so although a well-formed `bestmove`
line is available at the very first read — 0 ns after the wait begins,
vastly before the nominal `think_ms + 5000` ms deadline — the wait loop
fails with the timeout error without reading it: the Processor does not
read lines within `think_ms + 5000` ms. -/
theorem C8_overflow_counterexample :
    (Worker.executeChessComputation
        { jobID := "w2", correlationID := "", fen := "", elo := 0,
          maxTime := 10000000000000, createdAt := "" } 0
        [(0, Worker.ReadEvent.line "bestmove e2e4")]).outcome =
      Except.error "timeout waiting for bestmove" ∧
    (0 : Int) < 0 + (Worker.thinkMs 10000000000000 + 5000) ∧
    waitTimeoutNs (Worker.thinkMs 10000000000000) < 0 := by
  exact ⟨rfl, by decide, by decide⟩

/-- C8 amended.  For every job the Processor handles, the engine receives
`position startpos` exactly when the job's FEN is empty or whitespace and
`position fen {fen}` otherwise, followed by `go movetime {think_ms}` where a
non-positive move time defaults to 1000.  The bestmove wait deadline is the
wrapping 64-bit conversion of `think_ms + 5000` to nanoseconds — equal to
`think_ms + 5000` ms exactly when `think_ms + 5000 ≤ 9223372036854` (for
larger values it wraps negative and the wait times out immediately).  The
loop times out with `timeout waiting for bestmove` once its condition sees
the deadline reached, and a run of `info ` lines followed by a well-formed
`bestmove ` line before the deadline yields the parsed move, ponder and the
collected info lines. -/
theorem C8_engine_dialog :
    ∀ (job : Worker.Job) (start : Int) (trace : List (Int × Worker.ReadEvent)),
      (Worker.executeChessComputation job start trace).commands =
        [Worker.positionCommand job.fen, Worker.goCommand job.maxTime] ∧
      (Worker.goTrimSpace job.fen = "" → Worker.positionCommand job.fen = "position startpos") ∧
      (Worker.goTrimSpace job.fen ≠ "" →
        Worker.positionCommand job.fen = "position fen " ++ job.fen) ∧
      (job.maxTime ≤ 0 → Worker.goCommand job.maxTime = "go movetime 1000") ∧
      (0 < job.maxTime →
        Worker.goCommand job.maxTime = "go movetime " ++ toString job.maxTime) ∧
      (Worker.thinkMs job.maxTime + 5000 ≤ 9223372036854 →
        waitTimeoutNs (Worker.thinkMs job.maxTime) =
          (Worker.thinkMs job.maxTime + 5000) * 1000000) ∧
      ((∀ p ∈ trace, start + waitTimeoutNs (Worker.thinkMs job.maxTime) ≤ p.1) →
        (Worker.executeChessComputation job start trace).outcome =
          Except.error "timeout waiting for bestmove") ∧
      (∀ (pre : List (Int × String)) (tb : Int) (bmRaw : String)
          (rest : List (Int × Worker.ReadEvent)),
        (∀ p ∈ pre, p.1 < start + waitTimeoutNs (Worker.thinkMs job.maxTime) ∧
          Worker.goTrimSpace p.2 ≠ "" ∧
          Worker.goHasPrefix (Worker.goTrimSpace p.2) "info " = true) →
        tb < start + waitTimeoutNs (Worker.thinkMs job.maxTime) →
        Worker.goTrimSpace bmRaw ≠ "" →
        Worker.goHasPrefix (Worker.goTrimSpace bmRaw) "info " = false →
        Worker.goHasPrefix (Worker.goTrimSpace bmRaw) "bestmove " = true →
        (Worker.parseBestmoveLine (Worker.goTrimSpace bmRaw)).1 ≠ "" →
        (Worker.executeChessComputation job start
            (pre.map (fun p => (p.1, Worker.ReadEvent.line p.2)) ++
              (tb, Worker.ReadEvent.line bmRaw) :: rest)).outcome =
          Except.ok ((Worker.parseBestmoveLine (Worker.goTrimSpace bmRaw)).1,
            (Worker.parseBestmoveLine (Worker.goTrimSpace bmRaw)).2,
            String.intercalate "\n" (pre.map (fun p => Worker.goTrimSpace p.2)))) := by
  intro job start trace
  refine ⟨rfl, ?_, ?_, ?_, ?_, ?_, ?_, ?_⟩
  · intro h; simp [Worker.positionCommand, h]
  · intro h; simp [Worker.positionCommand, h]
  · intro h
    simp only [Worker.goCommand, Worker.thinkMs, if_pos h]
    rfl
  · intro h
    simp only [Worker.goCommand, Worker.thinkMs, if_neg (not_le.mpr h)]
  · intro h
    have h1 := one_le_thinkMs job.maxTime
    simp only [waitTimeoutNs, int64Wrap]
    omega
  · intro h
    exact waitBestmoveAux_deadline _ _ trace h
  · intro pre tb bmRaw rest hpre htb hne hinfo hbm hparse
    have := waitBestmoveAux_collects (start + waitTimeoutNs (Worker.thinkMs job.maxTime))
      pre [] tb bmRaw rest hpre htb hne hinfo hbm hparse
    simpa [Worker.executeChessComputation] using this

/-- C8, witness: empty FEN and move time 0 (no overflow, deadline 6·10^9 ns)
at a concrete engine dialog with one info line and a bestmove/ponder line. -/
theorem C8_engine_dialog_witness :
    (Worker.executeChessComputation
        { jobID := "w1", correlationID := "", fen := "", elo := 0,
          maxTime := 0, createdAt := "" } 0
        [(0, Worker.ReadEvent.line "info depth 1"),
         (1, Worker.ReadEvent.line "bestmove e2e4 ponder e7e5")]).outcome =
      Except.ok ("e2e4", "e7e5", "info depth 1") := by
  have h := (C8_engine_dialog
      { jobID := "w1", correlationID := "", fen := "", elo := 0,
        maxTime := 0, createdAt := "" } 0 []).2.2.2.2.2.2.2
    [(0, "info depth 1")] 1 "bestmove e2e4 ponder e7e5" []
    (by decide) (by decide) (by decide) (by decide) (by decide) (by decide)
  exact h

/-- Helper: the drain loop exits cleanly at the first poll that observes a
zero active-job counter, provided that poll is within the fuel. -/
theorem drainLoop_reaches_zero :
    ∀ (fuel : Nat) (counts : Nat → Nat) (t k : Nat),
      k < fuel → counts (t + k) = 0 → (∀ j, j < k → counts (t + j) ≠ 0) →
      Worker.drainLoop counts t fuel = Worker.DrainExit.allJobsCompleted (t + k) := by
  intro fuel
  induction fuel with
  | zero => intro counts t k hk; exact absurd hk (Nat.not_lt_zero k)
  | succ n ih =>
    intro counts t k hk h0 hpre
    by_cases hz : counts t = 0
    · cases k with
      | zero => simp [Worker.drainLoop, hz]
      | succ k => exact absurd hz (by simpa using hpre 0 (Nat.succ_pos k))
    · cases k with
      | zero => exact absurd (by simpa using h0) hz
      | succ k =>
        have heq : t + 1 + k = t + (k + 1) := by omega
        have hrec := ih counts (t + 1) k (Nat.lt_of_succ_lt_succ hk)
          (by rw [heq]; exact h0)
          (fun j hj => by
            have hj2 := hpre (j + 1) (Nat.succ_lt_succ hj)
            rwa [show t + (j + 1) = t + 1 + j from by omega] at hj2)
        simp only [Worker.drainLoop, if_neg hz]
        rw [hrec, heq]

/-- Helper: the drain loop exits forced when every poll within the fuel
observes a non-zero counter. -/
theorem drainLoop_all_nonzero :
    ∀ (fuel : Nat) (counts : Nat → Nat) (t : Nat),
      (∀ k, k < fuel → counts (t + k) ≠ 0) →
      Worker.drainLoop counts t fuel = Worker.DrainExit.forced := by
  intro fuel
  induction fuel with
  | zero => intro counts t _; rfl
  | succ n ih =>
    intro counts t h
    have hz : counts t ≠ 0 := by simpa using h 0 (Nat.succ_pos n)
    simp only [Worker.drainLoop, if_neg hz]
    exact ih counts (t + 1) (fun k hk => by
      have hk2 := h (k + 1) (Nat.succ_lt_succ hk)
      rwa [show t + (k + 1) = t + 1 + k from by omega] at hk2)

/-- C9.  Once the shutdown signal is raised, the `processJobs` loop entry
takes the drain branch (no further blocking pop is issued); the drain polls
the active-job counter every 100 ms with a 30 s deadline (300 polls); it
closes cleanly at the first poll observing a zero counter when that happens
within the deadline, and closes forced at the deadline when every poll
within it observes a non-zero counter. -/
theorem C9_graceful_shutdown :
    Worker.loopEntryAction true = Worker.PopAction.drainStarted ∧
    Worker.loopEntryAction false = Worker.PopAction.blpopIssued ∧
    Worker.shutdownPollMs = 100 ∧
    Worker.shutdownTimeoutMs = 30000 ∧
    Worker.shutdownTimeoutMs / Worker.shutdownPollMs = 300 ∧
    (∀ (counts : Nat → Nat) (k : Nat), k < 300 → counts k = 0 →
      (∀ j, j < k → counts j ≠ 0) →
      Worker.processorShutdown counts = Worker.DrainExit.allJobsCompleted k) ∧
    (∀ (counts : Nat → Nat), (∀ k, k < 300 → counts k ≠ 0) →
      Worker.processorShutdown counts = Worker.DrainExit.forced) := by
  refine ⟨rfl, rfl, rfl, rfl, rfl, ?_, ?_⟩
  · intro counts k hk h0 hpre
    have h := drainLoop_reaches_zero 300 counts 0 k hk (by simpa using h0)
      (fun j hj => by simpa using hpre j hj)
    simpa [Worker.processorShutdown, Worker.shutdownTimeoutMs, Worker.shutdownPollMs]
      using h
  · intro counts h
    have h2 := drainLoop_all_nonzero 300 counts 0 (fun k hk => by simpa using h k hk)
    simpa [Worker.processorShutdown, Worker.shutdownTimeoutMs, Worker.shutdownPollMs]
      using h2

/-- C9, witness: with two active jobs draining after two polls, the
Processor closes cleanly at poll 2 (200 ms after the drain begins). -/
theorem C9_graceful_shutdown_witness :
    Worker.processorShutdown (fun k => if k < 2 then 1 else 0) =
      Worker.DrainExit.allJobsCompleted 2 := by
  exact C9_graceful_shutdown.2.2.2.2.2.1 (fun k => if k < 2 then 1 else 0) 2
    (by decide) (by decide)
    (by intro j hj; interval_cases j <;> decide)

/-- Helper: a successful scan of one snapshot locates the first matching
entry: its index, the fact that nothing before it matches, and the fact
that `LRem 1` of the found string removes exactly that entry. -/
theorem findResult_first_match (decode : String → Option JobResult) (jid : String) :
    ∀ (snap : List String) (r : JobResult) (s : String),
      findResult decode jid snap = some (r, s) →
      ∃ i, i < snap.length ∧ snap.getD i "" = s ∧ isMatch decode jid s = true ∧
        (∀ j, j < i → isMatch decode jid (snap.getD j "") = false) ∧
        lrem1 snap s = snap.eraseIdx i := by
  intro snap
  induction snap with
  | nil => intro r s h; simp [findResult] at h
  | cons x xs ih =>
    intro r s h
    cases hx : decode x with
    | none =>
      rw [findResult, hx] at h
      obtain ⟨i, hi, hgd, hm, hpre, hrem⟩ := ih r s h
      have hxs : x ≠ s := by
        intro hxeq
        rw [← hxeq] at hm
        simp [isMatch, hx] at hm
      refine ⟨i + 1, by simpa using Nat.succ_lt_succ hi, by simpa using hgd, hm, ?_, ?_⟩
      · intro j hj
        cases j with
        | zero => simp [isMatch, hx]
        | succ j => simpa using hpre j (Nat.lt_of_succ_lt_succ hj)
      · simp [lrem1, hxs, List.eraseIdx_cons_succ, hrem]
    | some r0 =>
      simp only [findResult, hx] at h
      cases hjid : (r0.jobID == jid) with
      | true =>
        rw [hjid] at h
        simp at h
        obtain ⟨hr, hs⟩ := h
        refine ⟨0, by simp, by simpa using hs, ?_, ?_, ?_⟩
        · rw [← hs]; simp [isMatch, hx, hjid]
        · intro j hj; exact absurd hj (Nat.not_lt_zero j)
        · rw [← hs]; simp [lrem1]
      | false =>
        rw [hjid] at h
        simp at h
        obtain ⟨i, hi, hgd, hm, hpre, hrem⟩ := ih r s h
        have hxs : x ≠ s := by
          intro hxeq
          rw [← hxeq] at hm
          simp [isMatch, hx, hjid] at hm
        refine ⟨i + 1, by simpa using Nat.succ_lt_succ hi, by simpa using hgd, hm, ?_, ?_⟩
        · intro j hj
          cases j with
          | zero => simp [isMatch, hx, hjid]
          | succ j => simpa using hpre j (Nat.lt_of_succ_lt_succ hj)
        · simp [lrem1, hxs, List.eraseIdx_cons_succ, hrem]

/-- C10.  A single `waitForResult` run issues at most one `LRem`; when it
issues one, the removed string is the first record of the acted-on snapshot
whose job identifier matches (records that fail to decode and records for
other jobs never match), and the removal deletes exactly that entry,
leaving every other record of the snapshot unchanged. -/
theorem C10_wait_removes_at_most_one :
    ∀ (jid : String) (deadline : Int) (decode : String → Option JobResult)
      (trace : PollTrace),
      (waitForResultAux jid deadline decode trace).2.length ≤ 1 ∧
      (∀ snap s, (snap, s) ∈ (waitForResultAux jid deadline decode trace).2 →
        ∃ i, i < snap.length ∧ snap.getD i "" = s ∧ isMatch decode jid s = true ∧
          (∀ j, j < i → isMatch decode jid (snap.getD j "") = false) ∧
          lrem1 snap s = snap.eraseIdx i) := by
  intro jid deadline decode trace
  induction trace with
  | nil =>
    constructor
    · simp [waitForResultAux]
    · intro snap s hmem
      simp [waitForResultAux] at hmem
  | cons p rest ih =>
    obtain ⟨now, snap?⟩ := p
    by_cases hlt : now < deadline
    · cases snap? with
      | none => simpa [waitForResultAux, hlt] using ih
      | some snap =>
        cases hf : findResult decode jid snap with
        | none => simpa [waitForResultAux, hlt, hf] using ih
        | some rs =>
          obtain ⟨r, s⟩ := rs
          constructor
          · by_cases herr : r.error = "" <;>
              simp [waitForResultAux, hlt, hf, herr]
          · intro snap2 s2 hmem
            by_cases herr : r.error = ""
            · simp [waitForResultAux, hlt, hf, herr] at hmem
              rw [hmem.1, hmem.2]
              exact findResult_first_match decode jid snap r s hf
            · simp [waitForResultAux, hlt, hf, herr] at hmem
              rw [hmem.1, hmem.2]
              exact findResult_first_match decode jid snap r s hf
    · constructor
      · simp [waitForResultAux, hlt]
      · intro snap s hmem
        simp [waitForResultAux, hlt] at hmem

/-- C10, witness: a snapshot where the first record fails to decode and the
next two both match; only the first matching record `ra` (index 1) is
removed and the removal is exactly `eraseIdx 1`. -/
theorem C10_wait_removes_at_most_one_witness :
    ∃ i, i < (["rx", "ra", "rb"] : List String).length ∧
      (["rx", "ra", "rb"] : List String).getD i "" = "ra" ∧
      isMatch resultsDecode "jobW" "ra" = true ∧
      (∀ j, j < i →
        isMatch resultsDecode "jobW" ((["rx", "ra", "rb"] : List String).getD j "") = false) ∧
      lrem1 ["rx", "ra", "rb"] "ra" = List.eraseIdx ["rx", "ra", "rb"] i := by
  exact (C10_wait_removes_at_most_one "jobW" 10 resultsDecode
    [(0, some ["rx", "ra", "rb"])]).2 ["rx", "ra", "rb"] "ra" (by decide)

end BlunderBuss
